import Mathlib

/-!
Verification of the GoEV3 sensor change-notification subsystem
(`Sensors/touch.go`) and the motor device-resolution helper
(`Motor`, `findFolder`), via a shallow embedding in Lean 4.

Subscriber endpoints (Go channels) are modelled by their identity as
natural numbers; sensor readings (`uint8`) are modelled as naturals
(only equality of successive readings matters to the poller).
-/

namespace GoEV3

/-! ## Subscriber registry (touch.go lines 72-92)

The registry is the `channels []chan uint8` slice of `TouchSensor`,
modelled as a `List Nat` of endpoint identities. -/

/-- Embedding of the loop inside `indexOf` (touch.go lines 85-92): scan
`channels` with a running index `i`, return the index of the first
element equal to `ch`, or `-1` when the scan falls off the end. -/
def indexOfFrom : List Nat → Nat → Nat → Int
  | [], _, _ => -1
  | v :: rest, ch, i => if v = ch then (i : Int) else indexOfFrom rest ch (i + 1)

/-- Embedding of `(sensor *TouchSensor) indexOf` (touch.go lines 85-92). -/
def indexOf (channels : List Nat) (ch : Nat) : Int :=
  indexOfFrom channels ch 0

/-- Embedding of `Notify` (touch.go lines 72-76): append `ch` to the
slice only when `indexOf` reports it absent. -/
def Notify (channels : List Nat) (ch : Nat) : List Nat :=
  if indexOf channels ch = -1 then channels ++ [ch] else channels

/-- Embedding of `StopNotify` (touch.go lines 79-83): when `indexOf`
finds `ch` at index `i`, replace the slice by
`append(channels[:i], channels[i+1:]...)`, that is
`take i ++ drop (i+1)`; otherwise leave the slice unchanged. -/
def StopNotify (channels : List Nat) (ch : Nat) : List Nat :=
  let i := indexOf channels ch
  if i ≠ -1 then channels.take i.toNat ++ channels.drop (i.toNat + 1) else channels

/-! ## Change poller (touch.go lines 39-59)

The goroutine body reads a baseline `curVal`, then on each tick reads a
new value; when it differs it fans the value out to every channel in the
registry and then updates `curVal`. The sequence of values returned by
successive `ReadUInt8Value` calls is modelled as an input list. -/

/-- Embedding of the value-comparison skeleton of the poll loop
(touch.go lines 49-55), keeping only the delivered values: a value is
emitted exactly when it differs from the current `curVal`, and `curVal`
is updated afterwards. -/
def changes (cur : Nat) : List Nat → List Nat
  | [] => []
  | v :: rest => if v ≠ cur then v :: changes v rest else changes cur rest

/-- Embedding of the poll loop with fan-out (touch.go lines 49-55).
`regs` gives, for each tick, the `sensor.channels` slice visible at that
tick (the registry may be mutated between ticks). On a changed value the
poller emits one delivery `(ch, value)` per registered channel, in slice
order, then updates `curVal`; the result pairs the delivery sequence
with the final `curVal`. -/
def pollFan : Nat → List Nat → List (List Nat) → List (Nat × Nat) × Nat
  | cur, [], _ => ([], cur)
  | cur, v :: rest, regs =>
    if v ≠ cur then
      let r := pollFan v rest regs.tail
      (((regs.headD []).map fun ch => (ch, v)) ++ r.1, r.2)
    else pollFan cur rest regs.tail

/-- Embedding of a full listener run (touch.go lines 39-59) against a
fixed subscriber list `subs`: the first read is the baseline `curVal`
taken before the loop (line 42), the remaining reads are the loop ticks. -/
def listenRun (subs : List Nat) : List Nat → List (Nat × Nat)
  | [] => []
  | b :: rest => (pollFan b rest (List.replicate rest.length subs)).1

/-! ## Poller with fallible reads

Modelled from the spec: `utilities.ReadUInt8Value` is not part of the
sources under review; the AttributeStore contract says a read returns a
value or an IOError, and the polling policy on a read error is
fail-fast (the poller task terminates). A read is therefore an
`Option Nat`, with `none` standing for an IOError that kills the
poller task at that tick. -/

/-- Poll loop over fallible reads: deliveries to a single subscriber
plus a flag recording whether the poller died on a read error. On
`none` the task stops at once, delivering nothing for that tick or any
later tick (touch.go lines 44-58 with the spec-modelled fail-fast read). -/
def pollLoop : Nat → List (Option Nat) → List Nat × Bool
  | _, [] => ([], false)
  | _, none :: _ => ([], true)
  | cur, some v :: rest =>
    if v ≠ cur then
      let r := pollLoop v rest
      (v :: r.1, r.2)
    else pollLoop cur rest

/-- Full poller task over fallible reads: the first read is the baseline
(touch.go line 42); a failure there also kills the task. -/
def pollTask : List (Option Nat) → List Nat × Bool
  | [] => ([], false)
  | none :: _ => ([], true)
  | some b :: rest => pollLoop b rest

/-! ## Sensor lifecycle (touch.go lines 11-16, 35-69) -/

/-- Lifecycle-relevant state of a `TouchSensor` handle: the
`isListening` flag (touch.go line 13) plus a count of live poller
goroutines, modelling the effect of the `go func()` spawn at line 39
(the Go struct has no such field; the count embeds the set of running
background tasks belonging to this handle). -/
structure TouchSensor where
  isListening : Bool
  activePollers : Nat
deriving DecidableEq, Repr

/-- Embedding of `StartListening` (touch.go lines 35-61): return at once
when already listening (lines 36-38); otherwise spawn one poller
goroutine (line 39) and set `isListening` (line 60). -/
def StartListening (s : TouchSensor) : TouchSensor :=
  if s.isListening then s
  else { isListening := true, activePollers := s.activePollers + 1 }

/-- Embedding of `StopListening` (touch.go lines 64-69): when listening,
the send on `chStop` terminates the poller goroutine (lines 46-47) and
the flag is cleared (line 67); otherwise nothing happens. -/
def StopListening (s : TouchSensor) : TouchSensor :=
  if s.isListening then { isListening := false, activePollers := s.activePollers - 1 }
  else s

/-- Invariant tying the flag to the number of live pollers: exactly one
poller goroutine is running when and only when the handle is listening. -/
def pollerInv (s : TouchSensor) : Prop :=
  s.activePollers = if s.isListening then 1 else 0

/-- Whole-system effect of one poller task run on the handle. The
goroutine body (touch.go lines 39-59) never assigns `sensor.isListening`
or any other handle field — only `StopListening` (line 67) clears the
flag — so the handle component is returned unchanged whatever the reads
do, including a fatal read error. -/
def runPoller (s : TouchSensor) (reads : List (Option Nat)) :
    TouchSensor × List Nat × Bool :=
  (s, pollTask reads)

/-! ## Stop rendezvous (touch.go lines 44-48 and 64-69)

`chStop` is an unbuffered channel: the send in `StopListening`
(line 66) completes only jointly with the receive in the poller select
(line 46), after which the poller returns. The interleaving of the
caller and the poller goroutine is a small-step relation. -/

/-- Program counter of the poller goroutine: looping, or returned. -/
inductive PollerPC where
  | running
  | exited
deriving DecidableEq

/-- Program counter of a `StopListening` caller: blocked in the send on
`chStop` (line 66), past the send but before clearing the flag, or
returned (line 67 done). -/
inductive StopPC where
  | sending
  | afterSend
  | done
deriving DecidableEq

/-- Joint state of the poller goroutine and a `StopListening` caller. -/
structure Sys where
  poller : PollerPC
  stopper : StopPC
  listening : Bool
deriving DecidableEq

/-- Interleaving semantics. `tick`: the poller runs one more loop
iteration (the select may take the `default` branch while the sender is
still blocked). `rendezvous`: the unbuffered send (line 66) and the
receive in the select (line 46) complete jointly, and the poller
returns (line 47). `setIdle`: the caller, back from the send, clears
`isListening` (line 67) and returns. -/
inductive Step : Sys → Sys → Prop where
  | tick (st : StopPC) (l : Bool) :
      Step ⟨PollerPC.running, st, l⟩ ⟨PollerPC.running, st, l⟩
  | rendezvous (l : Bool) :
      Step ⟨PollerPC.running, StopPC.sending, l⟩ ⟨PollerPC.exited, StopPC.afterSend, l⟩
  | setIdle (p : PollerPC) (l : Bool) :
      Step ⟨p, StopPC.afterSend, l⟩ ⟨p, StopPC.done, false⟩

/-- Initial state of a stop: the handle is listening, the poller
goroutine is running, and the caller has just entered the blocking send
of `StopListening`. -/
def initSys : Sys :=
  ⟨PollerPC.running, StopPC.sending, true⟩

/-! ## Per-delivery goroutines (touch.go lines 30-32 and 50-53)

Each delivery is `go sendEvent(ch, value)`: a freshly spawned goroutine
performing one channel send, never joined. The Go scheduler may complete
pending sends in any order. A schedule is a list of events: `spawn`
enqueues a pending send in poller order, `deliver i` lets the scheduler
complete the pending send at position `i`. -/

/-- Scheduler events for the fire-and-forget delivery goroutines. -/
inductive Ev where
  | spawn (ch v : Nat)
  | deliver (i : Nat)
deriving DecidableEq

/-- Execute a schedule: `pending` holds the spawned but not yet
completed sends, `delivered` accumulates completed sends most recent
first. A schedule is valid when every `deliver` names a pending send and
no send is left pending at the end; the result is the sequence of
completed deliveries in completion order, or `none` for an invalid
schedule. -/
def runTrace : List Ev → List (Nat × Nat) → List (Nat × Nat) → Option (List (Nat × Nat))
  | [], pending, delivered =>
    if pending.isEmpty then some delivered.reverse else none
  | Ev.spawn ch v :: rest, pending, delivered =>
    runTrace rest (pending ++ [(ch, v)]) delivered
  | Ev.deliver i :: rest, pending, delivered =>
    match pending.get? i with
    | some p => runTrace rest (pending.eraseIdx i) (p :: delivered)
    | none => none

/-! ## Motor device resolution (`Motor` package, `findFolder`) -/

/-- Root of the tacho-motor attribute tree (`rootMotorPath`). -/
def rootMotorPath : String := "/sys/class/tacho-motor"

/-- Outcome of `findFolder`: either a folder path is returned to the
caller, or `log.Fatal` runs, which terminates the whole process and
returns nothing to the caller. -/
inductive MotorFind where
  | found (path : String)
  | processTerminated (msg : String)
deriving DecidableEq

/-- True exactly when the outcome is a `log.Fatal` process termination. -/
def MotorFind.isFatal : MotorFind → Bool
  | MotorFind.found _ => false
  | MotorFind.processTerminated _ => true

/-- Embedding of `findFolder` (Motor package, lines 62-84).
`rootExists` models `os.Stat(rootMotorPath)` succeeding; `motorFolders`
models the directory listing as pairs of folder name and the contents of
its `port_name` attribute file. The three `log.Fatal` calls become
`processTerminated` outcomes. -/
def findFolder (rootExists : Bool) (motorFolders : List (String × String))
    (port : String) : MotorFind :=
  if !rootExists then MotorFind.processTerminated "There are no motors connected"
  else if motorFolders.isEmpty then MotorFind.processTerminated "There are no motors connected"
  else
    match motorFolders.find? (fun f => f.2 == "out" ++ port) with
    | some f => MotorFind.found (rootMotorPath ++ "/" ++ f.1)
    | none => MotorFind.processTerminated ("No motor is connected to port " ++ port)

/-! ## Registry lemmas -/

/-- Scanning from any starting index reports `-1` exactly when the
channel is absent. -/
theorem indexOfFrom_eq_neg_one_iff (ch : Nat) :
    ∀ (l : List Nat) (i : Nat), indexOfFrom l ch i = -1 ↔ ch ∉ l := by
  intro l
  induction l with
  | nil => intro i; simp [indexOfFrom]
  | cons v rest ih =>
    intro i
    by_cases h : v = ch
    · subst h
      simp [indexOfFrom]
    · simp [indexOfFrom, h, ih (i + 1), Ne.symm h]

/-- The scan result is `-1` or at least the starting index. -/
theorem indexOfFrom_ge (ch : Nat) :
    ∀ (l : List Nat) (i : Nat),
      indexOfFrom l ch i = -1 ∨ (i : Int) ≤ indexOfFrom l ch i := by
  intro l
  induction l with
  | nil => intro i; left; rfl
  | cons v rest ih =>
    intro i
    by_cases h : v = ch
    · right; simp [indexOfFrom, h]
    · rcases ih (i + 1) with h1 | h1
      · left; simpa [indexOfFrom, h] using h1
      · right
        simp only [indexOfFrom, if_neg h]
        omega

/-- Scanning from index `i` shifts the result of scanning from `0`. -/
theorem indexOfFrom_shift (ch : Nat) :
    ∀ (l : List Nat) (i : Nat),
      indexOfFrom l ch i
        = if indexOfFrom l ch 0 = -1 then -1 else indexOfFrom l ch 0 + i := by
  intro l
  induction l with
  | nil => intro i; simp [indexOfFrom]
  | cons v rest ih =>
    intro i
    by_cases h : v = ch
    · subst h; simp [indexOfFrom]
    · have e1 := ih (i + 1)
      have e2 := ih 1
      simp only [indexOfFrom, if_neg h, Nat.zero_add] at e1 e2 ⊢
      rw [e1, e2]
      push_cast
      rcases indexOfFrom_ge ch rest 0 with hb | hb
      · simp [hb]
      · have hb1 : ¬indexOfFrom rest ch 0 = -1 := by omega
        have hne : ¬indexOfFrom rest ch 0 + 1 = -1 := by omega
        rw [if_neg hb1, if_neg hb1, if_neg hne]
        ring

/-- `indexOf` reports `-1` exactly when the channel is absent from the
slice (touch.go lines 85-92). -/
theorem indexOf_eq_neg_one_iff (l : List Nat) (ch : Nat) :
    indexOf l ch = -1 ↔ ch ∉ l :=
  indexOfFrom_eq_neg_one_iff ch l 0

/-- `Notify` is the identity when the channel is already registered. -/
theorem Notify_of_mem {l : List Nat} {ch : Nat} (h : ch ∈ l) :
    Notify l ch = l := by
  have hne : ¬indexOf l ch = -1 := fun he => (indexOf_eq_neg_one_iff l ch).mp he h
  simp [Notify, hne]

/-- `Notify` appends the channel when it is absent. -/
theorem Notify_of_not_mem {l : List Nat} {ch : Nat} (h : ch ∉ l) :
    Notify l ch = l ++ [ch] := by
  simp [Notify, (indexOf_eq_neg_one_iff l ch).mpr h]

/-- After `Notify`, the channel is registered. -/
theorem mem_Notify (l : List Nat) (ch : Nat) : ch ∈ Notify l ch := by
  by_cases h : ch ∈ l
  · rw [Notify_of_mem h]; exact h
  · rw [Notify_of_not_mem h]; simp

/-- The slice surgery of `StopNotify` coincides with erasing the first
occurrence of the channel. -/
theorem StopNotify_eq_erase (ch : Nat) :
    ∀ l : List Nat, StopNotify l ch = l.erase ch := by
  intro l
  induction l with
  | nil => simp [StopNotify, indexOf, indexOfFrom]
  | cons v rest ih =>
    by_cases h : v = ch
    · subst h
      have h0 : indexOf (v :: rest) v = 0 := by simp [indexOf, indexOfFrom]
      simp [StopNotify, h0, List.erase_cons_head]
    · have hstep : indexOf (v :: rest) ch = indexOfFrom rest ch 1 := by
        simp [indexOf, indexOfFrom, h]
      by_cases hb : indexOf rest ch = -1
      · have hnot : ch ∉ rest := (indexOf_eq_neg_one_iff rest ch).mp hb
        have hall : indexOf (v :: rest) ch = -1 := by
          rw [hstep, indexOfFrom_shift]
          simp only [indexOf] at hb
          simp [hb]
        have herase : (v :: rest).erase ch = v :: rest := by
          apply List.erase_of_not_mem
          simp [h, hnot, Ne.symm h]
        simp [StopNotify, hall, herase]
      · have hge : (0 : Int) ≤ indexOf rest ch := by
          rcases indexOfFrom_ge ch rest 0 with h1 | h1
          · exact absurd h1 hb
          · simpa [indexOf] using h1
        have hidx : indexOf (v :: rest) ch = indexOf rest ch + 1 := by
          rw [hstep, indexOfFrom_shift]
          simp only [indexOf] at hb
          simp [hb, indexOf]
        have htn : (indexOf rest ch + 1).toNat = (indexOf rest ch).toNat + 1 := by
          omega
        have hne2 : ¬indexOf (v :: rest) ch = -1 := by rw [hidx]; omega
        have hrest : StopNotify rest ch
            = rest.take (indexOf rest ch).toNat
              ++ rest.drop ((indexOf rest ch).toNat + 1) := by
          simp [StopNotify, hb]
        have hcons : (v :: rest).erase ch = v :: rest.erase ch := by
          rw [List.erase_cons]
          simp [h]
        calc StopNotify (v :: rest) ch
            = (v :: rest).take (indexOf (v :: rest) ch).toNat
              ++ (v :: rest).drop ((indexOf (v :: rest) ch).toNat + 1) := by
              simp [StopNotify, hne2]
          _ = v :: (rest.take (indexOf rest ch).toNat
              ++ rest.drop ((indexOf rest ch).toNat + 1)) := by
              rw [hidx, htn]; rfl
          _ = v :: StopNotify rest ch := by rw [hrest]
          _ = v :: rest.erase ch := by rw [ih]
          _ = (v :: rest).erase ch := hcons.symm

/-- C5: for sequences of Subscribe/Unsubscribe calls on the same
endpoint, the final registry membership is the net effect: `Notify`
twice equals `Notify` once (no duplicate entry), `StopNotify` after
`Notify` removes the endpoint exactly once (recovering the original
registry when the endpoint was absent), and `StopNotify` of an absent
endpoint is a no-op rather than an error. -/
theorem C5_subscribe_unsubscribe_net_effect (l : List Nat) (ch : Nat) :
    Notify (Notify l ch) ch = Notify l ch ∧
    (ch ∉ l → StopNotify (Notify l ch) ch = l) ∧
    (ch ∉ l → StopNotify l ch = l) := by
  refine ⟨Notify_of_mem (mem_Notify l ch), ?_, ?_⟩
  · intro h
    rw [Notify_of_not_mem h, StopNotify_eq_erase, List.erase_append_right _ h]
    simp
  · intro h
    rw [StopNotify_eq_erase, List.erase_of_not_mem h]

/-- C5 witness: the net-effect laws evaluated on the empty registry and
endpoint 5. -/
theorem C5_subscribe_unsubscribe_net_effect_witness :
    Notify (Notify [] 5) 5 = Notify [] 5 ∧
    StopNotify (Notify [] 5) 5 = [] ∧
    StopNotify ([] : List Nat) 5 = [] :=
  ⟨(C5_subscribe_unsubscribe_net_effect [] 5).1,
   (C5_subscribe_unsubscribe_net_effect [] 5).2.1 (by decide),
   (C5_subscribe_unsubscribe_net_effect [] 5).2.2 (by decide)⟩

/-- C10: `StopNotify` removes exactly the first entry equal to the given
channel and preserves the relative order of the remaining channels (the
result is the erase of the first occurrence, a sublist of the original,
and when the channel is present the registry splits around its first
occurrence); together with the duplicate check of `Notify`, both
operations preserve duplicate-freedom of the registry. -/
theorem C10_stop_notify_removes_first (l : List Nat) (ch : Nat) :
    StopNotify l ch = l.erase ch ∧
    (StopNotify l ch).Sublist l ∧
    (l.Nodup → (Notify l ch).Nodup ∧ (StopNotify l ch).Nodup) ∧
    (ch ∈ l → ∃ l1 l2, ch ∉ l1 ∧ l = l1 ++ ch :: l2 ∧ StopNotify l ch = l1 ++ l2) := by
  refine ⟨StopNotify_eq_erase ch l, ?_, ?_, ?_⟩
  · rw [StopNotify_eq_erase]
    exact List.erase_sublist ch l
  · intro hnd
    constructor
    · by_cases h : ch ∈ l
      · rw [Notify_of_mem h]; exact hnd
      · rw [Notify_of_not_mem h]
        simp [List.nodup_append, hnd, h]
    · rw [StopNotify_eq_erase]
      exact hnd.erase ch
  · intro h
    obtain ⟨l1, l2, h1, h2, h3⟩ := List.exists_erase_eq h
    exact ⟨l1, l2, h1, h2, by rw [StopNotify_eq_erase, h3]⟩

/-- C10 witness: the removal laws evaluated on the registry `[3, 4]` and
channel 3. -/
theorem C10_stop_notify_removes_first_witness :
    StopNotify [3, 4] 3 = List.erase [3, 4] 3 ∧
    (Notify [3, 4] 3).Nodup ∧
    (∃ l1 l2, 3 ∉ l1 ∧ [3, 4] = l1 ++ 3 :: l2 ∧ StopNotify [3, 4] 3 = l1 ++ l2) :=
  ⟨(C10_stop_notify_removes_first [3, 4] 3).1,
   ((C10_stop_notify_removes_first [3, 4] 3).2.2.1 (by decide)).1,
   (C10_stop_notify_removes_first [3, 4] 3).2.2.2 (by decide)⟩

/-! ## Poller lemmas and claim theorems -/

/-- The final observed value of a poll run does not depend on the
registry contents at any tick: the `curVal` update (touch.go line 54)
is unconditional on the subscriber list. -/
theorem pollFan_snd_indep :
    ∀ (reads : List Nat) (cur : Nat) (regs1 regs2 : List (List Nat)),
      (pollFan cur reads regs1).2 = (pollFan cur reads regs2).2 := by
  intro reads
  induction reads with
  | nil => intro cur r1 r2; rfl
  | cons v rest ih =>
    intro cur r1 r2
    by_cases h : v ≠ cur
    · simp [pollFan, h, ih v r1.tail r2.tail]
    · simp [pollFan, h, ih cur r1.tail r2.tail]

/-- Running the poller through a prefix of ticks with an empty registry
delivers nothing but still advances `curVal`: the run continues on the
remaining ticks exactly as if started from the recorded value. -/
theorem pollFan_empty_prefix :
    ∀ (pre : List Nat) (cur : Nat) (post : List Nat) (regs : List (List Nat)),
      pollFan cur (pre ++ post) (List.replicate pre.length [] ++ regs)
        = pollFan (pollFan cur pre (List.replicate pre.length [])).2 post regs := by
  intro pre
  induction pre with
  | nil => intro cur post regs; simp [pollFan]
  | cons v pre ih =>
    intro cur post regs
    by_cases h : v ≠ cur
    · simp [pollFan, List.replicate_succ, h, ih]
    · simp [pollFan, List.replicate_succ, h, ih]

/-- C1: running the listener on the read sequence `[0, 0, 1, 1, 2]` with
the single subscriber 7 registered before the start delivers exactly two
values, 1 then 2, and nothing for the repeated 0s: the first read is the
baseline taken before the loop, a delivery happens only when a read
differs from the last observed value, and the last observed value is
updated after delivery. -/
theorem C1_single_subscriber_receives_changes :
    listenRun [7] [0, 0, 1, 1, 2] = [(7, 1), (7, 2)] := by
  rfl

/-- C7: the poller records a detected change even when the registry is
empty. First, the final observed value is independent of the registry at
every tick; second, a run whose first ticks all see an empty registry
delivers nothing during those ticks yet continues on the remaining
ticks from the recorded value, so a subscriber present only for the
remaining ticks receives exactly the changes occurring after its
registration and never a past value. -/
theorem C7_empty_registry_still_records (cur : Nat) (reads pre post : List Nat)
    (regs1 regs2 regs : List (List Nat)) :
    (pollFan cur reads regs1).2 = (pollFan cur reads regs2).2 ∧
    pollFan cur (pre ++ post) (List.replicate pre.length [] ++ regs)
      = pollFan (pollFan cur pre (List.replicate pre.length [])).2 post regs :=
  ⟨pollFan_snd_indep reads cur regs1 regs2, pollFan_empty_prefix pre cur post regs⟩

/-- C9 counterexample: the claim promises monotonic per-subscriber
delivery order, but each delivery is a separate fire-and-forget
goroutine (`go sendEvent(ch, value)`, touch.go line 52). For the poller
spawn sequence produced by reads `[1, 2]` with subscriber 7 (two changes
observed in the order 1 then 2), the scheduler interleaving that
completes the second spawned send first is valid and delivers 2 before
1 to the same subscriber. -/
theorem C9_out_of_order_schedule_cex :
    runTrace (((pollFan 0 [1, 2] [[7], [7]]).1.map fun p => Ev.spawn p.1 p.2)
        ++ [Ev.deliver 1, Ev.deliver 0]) [] []
      = some [(7, 2), (7, 1)] := by
  decide

/-- C9 amended: delivery goroutines for a single subscriber are spawned
in the order the values were observed to differ, but because each
delivery is an unjoined goroutine the scheduler may complete them out of
order, so no per-subscriber delivery order is guaranteed. The theorem
states the spawn-order half: against a constant single-subscriber
registry the poller spawn sequence is exactly the observed change
sequence, each send addressed to that subscriber. -/
theorem C9_spawn_order_matches_observation (w : Nat) :
    ∀ (reads : List Nat) (cur : Nat),
      (pollFan cur reads (List.replicate reads.length [w])).1
        = (changes cur reads).map fun v => (w, v) := by
  intro reads
  induction reads with
  | nil => intro cur; rfl
  | cons v rest ih =>
    intro cur
    by_cases h : v ≠ cur
    · simp [pollFan, changes, List.replicate_succ, h, ih]
    · simp [pollFan, changes, List.replicate_succ, h, ih]

/-- C6 counterexample: with reads `[some 0, some 0, none]` (an IOError
at the third tick), the poller task dies without delivering anything,
but the handle does not transition to Idle: `isListening` remains true,
because no statement in the goroutine body (touch.go lines 39-59) ever
assigns `sensor.isListening`; the claim says the handle transitions to
Idle and the death is observable. -/
theorem C6_read_error_leaves_listening_cex :
    (runPoller (StartListening ⟨false, 0⟩) [some 0, some 0, none]).1.isListening = true ∧
    (runPoller (StartListening ⟨false, 0⟩) [some 0, some 0, none]).2 = ([], true) := by
  decide

/-- C6 amended: when a read raises an IOError at some tick, the poller
task dies at that tick and no delivery occurs for it or any later tick
(deliveries are exactly the changes among the earlier successful reads),
but the handle is returned unchanged: it stays in whatever lifecycle
state it had (Listening if started), the death is not observable through
the handle, and a subsequent `StopListening` would block on the `chStop`
send with no receiver. -/
theorem C6_read_error_poller_dies_amended (s : TouchSensor) (b : Nat)
    (pre : List Nat) (post : List (Option Nat)) :
    runPoller s (some b :: (pre.map some ++ none :: post))
      = (s, changes b pre, true) := by
  have hloop : ∀ (p : List Nat) (cur : Nat),
      pollLoop cur (p.map some ++ none :: post) = (changes cur p, true) := by
    intro p
    induction p with
    | nil => intro cur; rfl
    | cons v rest ih =>
      intro cur
      by_cases h : v ≠ cur
      · simp [pollLoop, changes, h, ih]
      · simp [pollLoop, changes, h, ih]
  simp [runPoller, pollTask, hloop]

/-! ## Lifecycle claim theorems -/

/-- C3: `StartListening` is idempotent. A second call without an
intervening `StopListening` returns the handle unchanged and spawns no
second poller goroutine; under the one-poller invariant, both lifecycle
operations preserve the invariant and a started handle has exactly one
active poller, so no duplicate deliveries can originate from duplicate
pollers. -/
theorem C3_start_listening_idempotent (s : TouchSensor) :
    StartListening (StartListening s) = StartListening s ∧
    (pollerInv s →
      pollerInv (StartListening s) ∧ pollerInv (StopListening s) ∧
      (StartListening s).activePollers = 1) := by
  constructor
  · by_cases h : s.isListening <;> simp [StartListening, h]
  · intro hinv
    unfold pollerInv at hinv
    by_cases h : s.isListening <;>
      simp_all [StartListening, StopListening, pollerInv, h]

/-- C3 witness: idempotence and the one-poller invariant evaluated on a
freshly constructed handle. -/
theorem C3_start_listening_idempotent_witness :
    StartListening (StartListening ⟨false, 0⟩) = StartListening ⟨false, 0⟩ ∧
    pollerInv (StartListening ⟨false, 0⟩) ∧ pollerInv (StopListening ⟨false, 0⟩) ∧
    (StartListening (⟨false, 0⟩ : TouchSensor)).activePollers = 1 :=
  ⟨(C3_start_listening_idempotent ⟨false, 0⟩).1,
   (C3_start_listening_idempotent ⟨false, 0⟩).2 rfl⟩

/-- C2: in every interleaving of the poller goroutine with a
`StopListening` caller, once the caller has returned (`done`), the
poller goroutine has exited, the handle is Idle, and no further step of
either process is possible — the unbuffered `chStop` send is a
rendezvous, so `StopListening` blocks until the poller has taken the
stop branch of its select and returned; the Idle handle makes a
subsequent `StartListening` spawn a fresh poller. -/
theorem C2_stop_blocks_until_poller_exit (s : Sys)
    (hreach : Relation.ReflTransGen Step initSys s)
    (hdone : s.stopper = StopPC.done) :
    s.poller = PollerPC.exited ∧ s.listening = false ∧ ∀ t, ¬ Step s t := by
  have hinv : ∀ u, Relation.ReflTransGen Step initSys u →
      (u.stopper = StopPC.afterSend → u.poller = PollerPC.exited) ∧
      (u.stopper = StopPC.done → u.poller = PollerPC.exited ∧ u.listening = false) := by
    intro u hu
    induction hu with
    | refl =>
      exact ⟨fun h => StopPC.noConfusion h, fun h => StopPC.noConfusion h⟩
    | tail _ hstep ih =>
      cases hstep with
      | tick st l => exact ih
      | rendezvous l =>
        exact ⟨fun _ => rfl, fun h => StopPC.noConfusion h⟩
      | setIdle p l =>
        exact ⟨fun h => StopPC.noConfusion h, fun _ => ⟨ih.1 rfl, rfl⟩⟩
  obtain ⟨hp, hl⟩ := (hinv s hreach).2 hdone
  refine ⟨hp, hl, fun t hstep => ?_⟩
  cases hstep with
  | tick st l => exact PollerPC.noConfusion hp
  | rendezvous l => exact PollerPC.noConfusion hp
  | setIdle p l => exact StopPC.noConfusion hdone

/-- C2 witness: the state reached by the rendezvous followed by the flag
clear is reachable from the initial stop configuration, and there the
poller has exited and the handle is Idle. -/
theorem C2_stop_blocks_until_poller_exit_witness :
    (⟨PollerPC.exited, StopPC.done, false⟩ : Sys).poller = PollerPC.exited ∧
    (⟨PollerPC.exited, StopPC.done, false⟩ : Sys).listening = false := by
  have hreach : Relation.ReflTransGen Step initSys
      ⟨PollerPC.exited, StopPC.done, false⟩ :=
    Relation.ReflTransGen.tail
      (Relation.ReflTransGen.single (Step.rendezvous true))
      (Step.setIdle PollerPC.exited true)
  have h := C2_stop_blocks_until_poller_exit _ hreach rfl
  exact ⟨h.1, h.2.1⟩

/-! ## Device-resolution claim theorems -/

/-- C4 counterexample: resolving a motor port with the device tree
present but no motor folder listed does not return an error value to the
caller — `findFolder` reaches `log.Fatal`, which terminates the whole
process; the claim says a DeviceNotFound error is returned to the
caller rather than handled by terminating the process. -/
theorem C4_find_folder_terminates_process_cex :
    findFolder true [] "A"
      = MotorFind.processTerminated "There are no motors connected" := by
  rfl

/-- C4 amended: device resolution is synchronous and fail-fast, but a
missing device terminates the process via `log.Fatal` instead of
returning a DeviceNotFound error: the outcome is a process termination
exactly when no listed folder matches the port (and always when the
device root is absent), and otherwise the matching folder path is
returned. -/
theorem C4_find_folder_fail_fast_amended (folders : List (String × String))
    (port : String) :
    (findFolder true folders port).isFatal
      = (folders.find? fun f => f.2 == "out" ++ port).isNone ∧
    (findFolder false folders port).isFatal = true := by
  constructor
  · cases folders with
    | nil => rfl
    | cons f fs =>
      simp only [findFolder]
      cases hfind : (f :: fs).find? fun g => g.2 == "out" ++ port with
      | none => simp [hfind, MotorFind.isFatal]
      | some g => simp [hfind, MotorFind.isFatal]
  · rfl

end GoEV3
